import Mathlib

/-
  Verification development for the TinyMCE HTML Schema engine
  (src/modules/tinymce/src/core/main/ts/api/html/Schema.ts).

  The TypeScript source is shallowly embedded below.  JavaScript objects
  used as string-keyed dictionaries are modelled as insertion-ordered
  association lists (`JsMap`); JavaScript regular expressions that appear
  in the source are modelled by dedicated parser functions that reproduce
  the observable match/group behaviour of each concrete regex on the
  character classes it uses; code paths on which the JavaScript would
  throw a `TypeError` (a property access on `undefined`/`null`) are
  modelled in the `Except String` monad.

  Modelled from the spec: the helper module `tinymce/core/api/util/Tools`
  is not part of the provided sources.  Its helpers used by Schema.ts are
  modelled by their standard JavaScript meanings: `Tools.trim` trims
  whitespace, `Tools.makeMap` splits a string and records each piece as a
  key, `Tools.explode` splits on commas and trims each piece,
  `Tools.inArray` is `Array.prototype.indexOf` (first index, `-1` when
  absent), `Tools.extend` copies own properties, `Tools.each` iterates in
  insertion order.
-/

set_option maxRecDepth 1000000
set_option maxHeartbeats 4000000

namespace Schema2Proof

/-! ## JavaScript object model: insertion-ordered association lists -/

/-- A JavaScript object used as a dictionary with string keys: an
insertion-ordered association list with unique keys.  Assigning to an
existing key updates it in place; assigning a fresh key appends. -/
abbrev JsMap (α : Type) := List (String × α)

/-- Property read `m[k]`. -/
def jget {α : Type} : JsMap α → String → Option α
  | [], _ => none
  | (k', v) :: r, k => if k' = k then some v else jget r k

/-- Property write `m[k] = v`: update in place or append. -/
def jset {α : Type} : JsMap α → String → α → JsMap α
  | [], k, v => [(k, v)]
  | (k', v') :: r, k, v => if k' = k then (k, v) :: r else (k', v') :: jset r k v

/-- `delete m[k]`: removes the (unique) binding of `k`, if any. -/
def jdel {α : Type} : JsMap α → String → JsMap α
  | [], _ => []
  | (k', v') :: r, k => if k' = k then r else (k', v') :: jdel r k

/-- Truthiness test `!!m[k]` (all stored values are objects, hence truthy). -/
def jhas {α : Type} (m : JsMap α) (k : String) : Bool :=
  (jget m k).isSome

/-- The keys of the object, in insertion order. -/
def jkeys {α : Type} (m : JsMap α) : List String :=
  m.map Prod.fst

/-! ## JavaScript string splitting -/

/-- The JS whitespace characters relevant to `Tools.trim` (ASCII set). -/
def isSpaceJs (c : Char) : Bool :=
  c = ' ' || c = '\t' || c = '\n' || c = '\r' || c = '\x0b' || c = '\x0c'

/-- `Tools.trim`: strip whitespace from both ends. -/
def jsTrim (s : String) : String :=
  ((s.data.dropWhile isSpaceJs).reverse.dropWhile isSpaceJs).reverse.asString

/-- `String.prototype.toUpperCase` restricted to ASCII (the only case
the schema's name sets exercise). -/
def toUpperJs (s : String) : String :=
  (s.data.map fun c => if 'a' ≤ c && c ≤ 'z' then Char.ofNat (c.toNat - 32) else c).asString

/-- `String.prototype.toLowerCase` restricted to ASCII. -/
def toLowerJs (s : String) : String :=
  (s.data.map fun c => if 'A' ≤ c && c ≤ 'Z' then Char.ofNat (c.toNat + 32) else c).asString

/-- `String.prototype.split` on a single-character separator class:
splits at every separator occurrence, keeping empty pieces;
`''.split(d) = ['']`. -/
def splitCh (p : Char → Bool) : List Char → List (List Char)
  | [] => [[]]
  | c :: r =>
    let rest := splitCh p r
    if p c then [] :: rest
    else
      match rest with
      | h :: t => (c :: h) :: t
      | [] => [[c]]

/-- JS `s.split(sep)` for the single-character separators used in Schema.ts. -/
def jsSplit (s : String) (p : Char → Bool) : List String :=
  (splitCh p s.data).map List.asString

/-- The private `split` helper of Schema.ts: `Tools.trim` then split on the
delimiter (default `' '`), returning `[]` for a blank string. -/
def splitSch (items : String) (delim : Char) : List String :=
  let t := jsTrim items
  if t = "" then [] else jsSplit t (· = delim)

/-- `Tools.explode`: split on commas and trim every piece. -/
def explodeJs (s : String) : List String :=
  (jsSplit s (· = ',')).map jsTrim

/-- `Tools.inArray` = `Array.prototype.indexOf`: first index or `-1`. -/
def jsIndexOf (l : List String) (x : String) : Int :=
  match l.indexOf? x with
  | some i => (i : Int)
  | none => -1

/-- `Array.prototype.splice(start, 1)` restricted to one deleted element;
a negative `start` counts from the end of the array. -/
def spliceOne {α : Type} (l : List α) (start : Int) : List α :=
  let s : Nat := if start < 0 then (max ((l.length : Int) + start) 0).toNat
                 else min start.toNat l.length
  l.take s ++ l.drop (s + 1)

/-- `Tools.makeMap(items, delim, map)`: split `items` on the separator and
record every piece as a key (the source iterates `while (i--)`, i.e. from
the last piece to the first). -/
def makeMapP (items : String) (p : Char → Bool) (m0 : JsMap Unit) : JsMap Unit :=
  (jsSplit items p).reverse.foldl (fun m k => jset m k ()) m0

/-- `Tools.extend(m, ext)`: copy every binding of `ext` into `m`. -/
def extendJ {α : Type} (m ext : JsMap α) : JsMap α :=
  ext.foldl (fun m kv => jset m kv.1 kv.2) m

/-! ## Wildcard patterns

`patternToRegExp(str)` builds `new RegExp('^' + str.replace(/([?+*])/g, '.$1') + '$')`:
a `.` is inserted before every `?`, `+` or `*`, so in the compiled pattern a
quantifier always applies to a fresh `.`.  We model the resulting anchored
regex for patterns built from ordinary name characters, `.`, and the three
wildcard characters (the characters the valid-elements grammar uses). -/

inductive WTok : Type
  | lit (c : Char)
  | anyOne
  | anyOpt
  | anyStar
  | anyPlus
deriving DecidableEq, Repr

/-- The token sequence of the regex `'^' + str.replace(/([?+*])/g, '.$1') + '$'`. -/
def patCompile (s : String) : List WTok :=
  s.data.map fun c =>
    if c = '*' then WTok.anyStar
    else if c = '?' then WTok.anyOpt
    else if c = '+' then WTok.anyPlus
    else if c = '.' then WTok.anyOne
    else WTok.lit c

/-- Anchored matching of the compiled wildcard pattern. -/
def wmatch : List WTok → List Char → Bool
  | [], cs => cs.isEmpty
  | WTok.lit a :: ts, cs =>
    match cs with
    | c :: cs' => a = c && wmatch ts cs'
    | [] => false
  | WTok.anyOne :: ts, cs =>
    match cs with
    | _ :: cs' => wmatch ts cs'
    | [] => false
  | WTok.anyOpt :: ts, cs =>
    wmatch ts cs ||
      (match cs with
       | _ :: cs' => wmatch ts cs'
       | [] => false)
  | WTok.anyPlus :: ts, cs =>
    match cs with
    | _ :: cs' => (List.range (cs'.length + 1)).any fun k => wmatch ts (cs'.drop k)
    | [] => false
  | WTok.anyStar :: ts, cs =>
    (List.range (cs.length + 1)).any fun k => wmatch ts (cs.drop k)

/-- `regexp.test(name)` for a compiled wildcard pattern. -/
def patTest (p : List WTok) (s : String) : Bool :=
  wmatch p s.data

/-- `hasPatternsRegExp = /[*?+]/` — `test` on a name. -/
def hasWild (s : String) : Bool :=
  s.data.any fun c => c = '*' || c = '?' || c = '+'

/-! ## The element-rule regex

`elementRuleRegExp = /^([#+\-])?([^\[!\/]+)(?:\/([^\[!]+))?(?:(!?)\[([^\]]+)])?$/`

The name class excludes exactly the delimiters that the later parts start
with, so greedy runs never backtrack; the only backtracking point is the
optional prefix character, which is retried as the first name character
when the rest of the string fails to match. -/

structure ElemParse : Type where
  lead : Option Char := none
  name : String := ""
  outName : Option String := none
  bang : Bool := false
  attrData : Option String := none
deriving DecidableEq, Repr

/-- Chars allowed in the element-name group `[^\[!\/]+`. -/
def isElemNameChar (c : Char) : Bool :=
  c ≠ '[' && c ≠ '!' && c ≠ '/'

/-- Chars allowed in the output-name group `[^\[!]+`. -/
def isOutNameChar (c : Char) : Bool :=
  c ≠ '[' && c ≠ '!'

/-- The trailing `(?:(!?)\[([^\]]+)])?$` part. -/
def parseAttrBlock : List Char → Option (Bool × Option String)
  | [] => some (false, none)
  | '!' :: '[' :: rest =>
    let d := rest.takeWhile (· ≠ ']')
    if d.isEmpty then none
    else match rest.drop d.length with
      | [']'] => some (true, some d.asString)
      | _ => none
  | '[' :: rest =>
    let d := rest.takeWhile (· ≠ ']')
    if d.isEmpty then none
    else match rest.drop d.length with
      | [']'] => some (false, some d.asString)
      | _ => none
  | _ => none

/-- The `([^\[!\/]+)(?:\/([^\[!]+))?(?:(!?)\[([^\]]+)])?$` tail. -/
def parseElemTail (s : List Char) : Option (String × Option String × Bool × Option String) :=
  let nm := s.takeWhile isElemNameChar
  if nm.isEmpty then none
  else
    match s.drop nm.length with
    | '/' :: r2 =>
      let o := r2.takeWhile isOutNameChar
      if o.isEmpty then none
      else (parseAttrBlock (r2.drop o.length)).map fun ba =>
        (nm.asString, some o.asString, ba.1, ba.2)
    | r => (parseAttrBlock r).map fun ba => (nm.asString, none, ba.1, ba.2)

/-- `elementRuleRegExp.exec(rule)`, with the groups the source reads. -/
def parseElementRule (s : String) : Option ElemParse :=
  match s.data with
  | [] => none
  | c :: rest =>
    if c = '#' || c = '+' || c = '-' then
      match parseElemTail rest with
      | some (n, o, b, a) => some ⟨some c, n, o, b, a⟩
      | none =>
        (parseElemTail (c :: rest)).map fun r => ⟨none, r.1, r.2.1, r.2.2.1, r.2.2.2⟩
    else
      (parseElemTail (c :: rest)).map fun r => ⟨none, r.1, r.2.1, r.2.2.1, r.2.2.2⟩

/-! ## The attribute-rule regex

`attrRuleRegExp = /^([!\-])?(\w+[\\:]:\w+|[^=:<]+)?(?:([=:<])(.*))?$/`

Because the name group is optional and `.*` absorbs anything after an
operator, this regex matches every string; the interesting structure is
which groups are defined.  When the name group is undefined the source
crashes on `matches[2].replace`, which the embedding surfaces as an
error. -/

structure AttrParse : Type where
  attrType : Option Char := none
  name : Option String := none
  op : Option Char := none
  value : Option String := none
deriving DecidableEq, Repr

/-- `\w` of JavaScript: ASCII letters, digits and underscore. -/
def isWordChar (c : Char) : Bool :=
  ('a' ≤ c && c ≤ 'z') || ('A' ≤ c && c ≤ 'Z') || ('0' ≤ c && c ≤ '9') || c = '_'

/-- Whether `(?:([=:<])(.*))?$` can match the given remainder. -/
def restOk : List Char → Bool
  | [] => true
  | c :: _ => c = '=' || c = ':' || c = '<'

/-- First alternative of the name group, `\w+[\\:]:\w+`, with the trailing
word run backtracking from longest to shortest until the remainder can be
consumed by the operator part. -/
def attrNameAlt1 (s : List Char) : Option (List Char × List Char) :=
  let w1 := s.takeWhile isWordChar
  if w1.isEmpty then none
  else
    match s.drop w1.length with
    | a :: b :: r3 =>
      if (a = '\\' || a = ':') && b = ':' then
        let w2 := s.drop w1.length |>.drop 2 |>.takeWhile isWordChar
        if w2.isEmpty then none
        else
          match (((List.range w2.length).map (· + 1)).reverse.find? fun k =>
              restOk (r3.drop k)) with
          | some k => some (w1 ++ [a, b] ++ r3.take k, r3.drop k)
          | none => none
      else none
    | _ => none

/-- Second alternative of the name group, `[^=:<]+` (greedy; the maximal
run is always consistent with the operator part). -/
def attrNameAlt2 (s : List Char) : Option (List Char × List Char) :=
  let n := s.takeWhile fun c => !(c = '=' || c = ':' || c = '<')
  if n.isEmpty then none else some (n, s.drop n.length)

/-- `attrName.replace(/[\\:]:/g, ':')`: left-to-right, non-overlapping. -/
def replaceEsc : List Char → List Char
  | a :: b :: r =>
    if (a = '\\' || a = ':') && b = ':' then ':' :: replaceEsc r
    else a :: replaceEsc (b :: r)
  | s => s

/-- The operator-and-value tail `(?:([=:<])(.*))?` on a remainder accepted
by `restOk`. -/
def attrOpVal : List Char → Option Char × Option String
  | [] => (none, none)
  | c :: v => (some c, some v.asString)

/-- `attrRuleRegExp.exec(token)`: always matches; the name field is `none`
exactly when group 2 is undefined (the raw name, before `replace`). -/
def parseAttrToken (t : String) : AttrParse :=
  let core : Option Char → List Char → AttrParse := fun ty s =>
    match attrNameAlt1 s with
    | some (n, r) =>
      let ov := attrOpVal r
      ⟨ty, some n.asString, ov.1, ov.2⟩
    | none =>
      match attrNameAlt2 s with
      | some (n, r) =>
        let ov := attrOpVal r
        ⟨ty, some n.asString, ov.1, ov.2⟩
      | none =>
        let ov := attrOpVal s
        ⟨ty, none, ov.1, ov.2⟩
  match t.data with
  | c :: rest =>
    if c = '!' || c = '-' then core (some c) rest
    else core none t.data
  | [] => core none []

/-! ## The custom-element regex

`customElementRegExp = /^(~)?(.+)$/` (no `s` flag, so `.` excludes `'\n'`):
matches iff the rule is nonempty and newline-free; the leading `~` is part
of the name only when nothing else is left for `(.+)`. -/

/-- `customElementRegExp.exec(rule)` as `(inline, name)`;
`none` is a null match (on which the source throws). -/
def parseCustomRule (s : String) : Option (Bool × String) :=
  if s = "" || s.data.any (· = '\n') then none
  else
    match s.data with
    | '~' :: (c :: r) => some (true, (c :: r).asString)
    | l => some (false, l.asString)

/-! ## The valid-children regex

`childRuleRegExp = /^([+\-]?)([A-Za-z0-9_\-.·À-ÖØ-öø-ͽͿ-῿‌-‍‿-⁀⁰-↏Ⰰ-⿯、-퟿豈-﷏ﷰ-�]+)\[([^\]]+)]$/` -/

/-- Membership in the custom-element-name character class of the regex. -/
def isChildNameChar (c : Char) : Bool :=
  let n := c.toNat
  ('a' ≤ c && c ≤ 'z') || ('A' ≤ c && c ≤ 'Z') || ('0' ≤ c && c ≤ '9') ||
  c = '_' || c = '-' || c = '.' || n = 0xb7 ||
  (0xc0 ≤ n && n ≤ 0xd6) || (0xd8 ≤ n && n ≤ 0xf6) || (0xf8 ≤ n && n ≤ 0x37d) ||
  (0x37f ≤ n && n ≤ 0x1fff) || (0x200c ≤ n && n ≤ 0x200d) ||
  (0x203f ≤ n && n ≤ 0x2040) || (0x2070 ≤ n && n ≤ 0x218f) ||
  (0x2c00 ≤ n && n ≤ 0x2fef) || (0x3001 ≤ n && n ≤ 0xd7ff) ||
  (0xf900 ≤ n && n ≤ 0xfdcf) || (0xfdf0 ≤ n && n ≤ 0xfffd)

/-- The `(NAME+)\[([^\]]+)]$` tail of the child-rule regex. -/
def parseChildTail (s : List Char) : Option (String × String) :=
  let nm := s.takeWhile isChildNameChar
  if nm.isEmpty then none
  else
    match s.drop nm.length with
    | '[' :: rest =>
      let d := rest.takeWhile (· ≠ ']')
      if d.isEmpty then none
      else match rest.drop d.length with
        | [']'] => some (nm.asString, d.asString)
        | _ => none
    | _ => none

/-- `childRuleRegExp.exec(rule)` as `(prefix, parent, childData)`; the
prefix group `([+\-]?)` yields the empty match `none` when absent, and is
retried as a name character when the tail fails. -/
def parseChildRule (s : String) : Option (Option Char × String × String) :=
  match s.data with
  | [] => none
  | c :: rest =>
    if c = '+' || c = '-' then
      match parseChildTail rest with
      | some (n, d) => some (some c, n, d)
      | none => (parseChildTail (c :: rest)).map fun r => (none, r.1, r.2)
    else
      (parseChildTail (c :: rest)).map fun r => (none, r.1, r.2)

/-! ## Data model -/

/-- An attribute rule; a freshly parsed `attr = {}` has all defaults. -/
structure AttrRule : Type where
  required : Bool := false
  defaultValue : Option String := none
  forcedValue : Option String := none
  validValues : Option (JsMap Unit) := none
  pattern : Option (List WTok) := none
deriving DecidableEq, Repr

/-- An element rule (the source's `SchemaElement`); fields the source only
sets conditionally default to `none`/`false`, matching absent JS
properties. -/
structure SchemaElement : Type where
  attributes : JsMap AttrRule := []
  attributesOrder : List String := []
  attributesRequired : Option (List String) := none
  attributesDefault : Option (List (String × String)) := none
  attributesForced : Option (List (String × String)) := none
  attributePatterns : Option (List AttrRule) := none
  paddEmpty : Bool := false
  removeEmpty : Bool := false
  removeEmptyAttrs : Bool := false
  outputName : Option String := none
  pattern : Option (List WTok) := none
  parentsRequired : Option (List String) := none
deriving DecidableEq, Repr

/-- An entry of the compiled base grammar (`compileSchema`'s `element`s):
attributes, their order, and the permitted-children set. -/
structure BaseItem : Type where
  attributes : JsMap AttrRule := []
  attributesOrder : List String := []
  children : JsMap Unit := []
deriving DecidableEq, Repr

/-- The `schema` option: `'html4' | 'html5' | 'html5-strict'`. -/
inductive SType : Type
  | html4
  | html5
  | html5strict
deriving DecidableEq, Repr

/-! ## The base grammar builder (`compileSchema`) -/

/-- The `add(name, attributes, children)` helper of `compileSchema`:
for every space-separated name (iterated from last to first by
`while (ni--)`) record a fresh element whose attribute order is the global
attributes followed by the specific ones, and whose children set is built
from the children list. -/
def addSch (schema : JsMap BaseItem) (ga : String) (name : String)
    (attributes : String := "") (childrenS : String := "") : JsMap BaseItem :=
  let childrenL := splitSch childrenS ' '
  let order := splitSch (ga ++ " " ++ attributes) ' '
  let el : BaseItem :=
    { attributes := order.foldl (fun m a => jset m a {}) []
      attributesOrder := order
      children := childrenL.foldl (fun m c => jset m c ()) [] }
  (splitSch name ' ').reverse.foldl (fun s n => jset s n el) schema

/-- The `addAttrs(name, attributes)` helper of `compileSchema`: extend the
attribute map and push onto the order list of each named element.
The source would crash on a missing element; all its call sites name
elements that exist for the variants on which they run, so a missing
element is modelled as a no-op. -/
def addAttrsSch (schema : JsMap BaseItem) (name : String)
    (attributes : String := "") : JsMap BaseItem :=
  let attrs := splitSch attributes ' '
  (splitSch name ' ').reverse.foldl
    (fun s n =>
      match jget s n with
      | none => s
      | some it =>
        jset s n
          { it with
            attributes := attrs.foldl (fun m a => jset m a {}) it.attributes
            attributesOrder := it.attributesOrder ++ attrs })
    schema

/-- Delete the self-referential child edge of an element, when present
(`delete schema[name].children[name]`). -/
def delSelfChild (schema : JsMap BaseItem) (name : String) : JsMap BaseItem :=
  match jget schema name with
  | none => schema
  | some it => jset schema name { it with children := jdel it.children name }

/-- `compileSchema(type)`: the default element/attribute/children tables
for a schema variant (`settings.schema` may also be `undefined`, hence the
`Option`).  The process-wide `mapCache` memoization is not modelled; the
function is pure.  All strings are transcribed verbatim from the source. -/
def compileSchema (t : Option SType) : JsMap BaseItem :=
  let notH4 : Bool := t ≠ some SType.html4
  let notStrict : Bool := t ≠ some SType.html5strict
  let globalAttributes :=
    "id accesskey class dir lang style tabindex title role"
    ++ (if notH4 then
          " contenteditable contextmenu draggable dropzone hidden spellcheck translate"
        else "")
    ++ (if notStrict then " xml:lang" else "")
  let blockContent :=
    "address blockquote div dl fieldset form h1 h2 h3 h4 h5 h6 hr menu ol p pre table ul"
    ++ (if notH4 then
          " article aside details dialog figure main header footer hgroup section nav"
        else "")
  let phrasingContent0 :=
    "a abbr b bdo br button cite code del dfn em embed i iframe img input ins kbd "
    ++ "label map noscript object q s samp script select small span strong sub sup "
    ++ "textarea u var #text #comment"
    ++ (if notH4 then
          " audio canvas command datalist mark meter output picture progress time wbr video ruby bdi keygen"
        else "")
  let html4PhrasingContent := "acronym applet basefont big font strike tt"
  let phrasingContent :=
    if notStrict then phrasingContent0 ++ " " ++ html4PhrasingContent
    else phrasingContent0
  let html4BlockContent := "center dir isindex noframes"
  let blockContent :=
    if notStrict then blockContent ++ " " ++ html4BlockContent else blockContent
  let flowContent := blockContent ++ " " ++ phrasingContent
  let s : JsMap BaseItem := []
  let s :=
    if notStrict then
      let s := addSch s globalAttributes html4PhrasingContent "" phrasingContent
      addSch s globalAttributes html4BlockContent "" flowContent
    else s
  let add := fun (s : JsMap BaseItem) (name attributes childrenS : String) =>
    addSch s globalAttributes name attributes childrenS
  let s := add s "html" "manifest" "head body"
  let s := add s "head" "" "base command link meta noscript script style title"
  let s := add s "title hr noscript br" "" ""
  let s := add s "base" "href target" ""
  let s := add s "link" "href rel media hreflang type sizes hreflang" ""
  let s := add s "meta" "name http-equiv content charset" ""
  let s := add s "style" "media type scoped" ""
  let s := add s "script" "src async defer type charset" ""
  let s := add s "body"
    ("onafterprint onbeforeprint onbeforeunload onblur onerror onfocus "
      ++ "onhashchange onload onmessage onoffline ononline onpagehide onpageshow "
      ++ "onpopstate onresize onscroll onstorage onunload") flowContent
  let s := add s "address dt dd div caption" "" flowContent
  let s := add s
    "h1 h2 h3 h4 h5 h6 pre p abbr code var samp kbd sub sup i b u bdo span legend em strong small s cite dfn"
    "" phrasingContent
  let s := add s "blockquote" "cite" flowContent
  let s := add s "ol" "reversed start type" "li"
  let s := add s "ul" "" "li"
  let s := add s "li" "value" flowContent
  let s := add s "dl" "" "dt dd"
  let s := add s "a" "href target rel media hreflang type" phrasingContent
  let s := add s "q" "cite" phrasingContent
  let s := add s "ins del" "cite datetime" flowContent
  let s := add s "img" "src sizes srcset alt usemap ismap width height" ""
  let s := add s "iframe" "src name width height" flowContent
  let s := add s "embed" "src type width height" ""
  let s := add s "object" "data type typemustmatch name usemap form width height"
    (flowContent ++ " " ++ "param")
  let s := add s "param" "name value" ""
  let s := add s "map" "name" (flowContent ++ " " ++ "area")
  let s := add s "area" "alt coords shape href target rel media hreflang type" ""
  let s := add s "table" "border"
    ("caption colgroup thead tfoot tbody tr" ++ (if t = some SType.html4 then " col" else ""))
  let s := add s "colgroup" "span" "col"
  let s := add s "col" "span" ""
  let s := add s "tbody thead tfoot" "" "tr"
  let s := add s "tr" "" "td th"
  let s := add s "td" "colspan rowspan headers" flowContent
  let s := add s "th" "colspan rowspan headers scope abbr" flowContent
  let s := add s "form" "accept-charset action autocomplete enctype method name novalidate target"
    flowContent
  let s := add s "fieldset" "disabled form name" (flowContent ++ " " ++ "legend")
  let s := add s "label" "form for" phrasingContent
  let s := add s "input"
    ("accept alt autocomplete checked dirname disabled form formaction formenctype formmethod formnovalidate "
      ++ "formtarget height list max maxlength min multiple name pattern readonly required size src step type value width")
    ""
  let s := add s "button"
    "disabled form formaction formenctype formmethod formnovalidate formtarget name type value"
    (if t = some SType.html4 then flowContent else phrasingContent)
  let s := add s "select" "disabled form multiple name required size" "option optgroup"
  let s := add s "optgroup" "disabled label" "option"
  let s := add s "option" "disabled label selected value" ""
  let s := add s "textarea" "cols dirname disabled form maxlength name readonly required rows wrap" ""
  let s := add s "menu" "type label" (flowContent ++ " " ++ "li")
  let s := add s "noscript" "" flowContent
  let s :=
    if notH4 then
      let s := add s "wbr" "" ""
      let s := add s "ruby" "" (phrasingContent ++ " " ++ "rt rp")
      let s := add s "figcaption" "" flowContent
      let s := add s "mark rt rp summary bdi" "" phrasingContent
      let s := add s "canvas" "width height" flowContent
      let s := add s "video"
        ("src crossorigin poster preload autoplay mediagroup loop "
          ++ "muted controls width height buffered")
        (flowContent ++ " " ++ "track source")
      let s := add s "audio"
        "src crossorigin preload autoplay mediagroup loop muted controls buffered volume"
        (flowContent ++ " " ++ "track source")
      let s := add s "picture" "" "img source"
      let s := add s "source" "src srcset type media sizes" ""
      let s := add s "track" "kind src srclang label default" ""
      let s := add s "datalist" "" (phrasingContent ++ " " ++ "option")
      let s := add s "article section nav aside main header footer" "" flowContent
      let s := add s "hgroup" "" "h1 h2 h3 h4 h5 h6"
      let s := add s "figure" "" (flowContent ++ " " ++ "figcaption")
      let s := add s "time" "datetime" phrasingContent
      let s := add s "dialog" "open" flowContent
      let s := add s "command" "type label icon disabled checked radiogroup command" ""
      let s := add s "output" "for form name" phrasingContent
      let s := add s "progress" "value max" phrasingContent
      let s := add s "meter" "value min max low high optimum" phrasingContent
      let s := add s "details" "open" (flowContent ++ " " ++ "summary")
      add s "keygen" "autofocus challenge disabled form keytype name" ""
    else s
  let s :=
    if notStrict then
      let s := addAttrsSch s "script" "language xml:space"
      let s := addAttrsSch s "style" "xml:space"
      let s := addAttrsSch s "object"
        "declare classid code codebase codetype archive standby align border hspace vspace"
      let s := addAttrsSch s "embed" "align name hspace vspace"
      let s := addAttrsSch s "param" "valuetype type"
      let s := addAttrsSch s "a" "charset name rev shape coords"
      let s := addAttrsSch s "br" "clear"
      let s := addAttrsSch s "applet"
        "codebase archive code object alt name width height align hspace vspace"
      let s := addAttrsSch s "img" "name longdesc align border hspace vspace"
      let s := addAttrsSch s "iframe" "longdesc frameborder marginwidth marginheight scrolling align"
      let s := addAttrsSch s "font basefont" "size color face"
      let s := addAttrsSch s "input" "usemap align"
      let s := addAttrsSch s "select" ""
      let s := addAttrsSch s "textarea" ""
      let s := addAttrsSch s "h1 h2 h3 h4 h5 h6 div p legend caption" "align"
      let s := addAttrsSch s "ul" "type compact"
      let s := addAttrsSch s "li" "type"
      let s := addAttrsSch s "ol dl menu dir" "compact"
      let s := addAttrsSch s "pre" "width xml:space"
      let s := addAttrsSch s "hr" "align noshade size width"
      let s := addAttrsSch s "isindex" "prompt"
      let s := addAttrsSch s "table" "summary width frame rules cellspacing cellpadding align bgcolor"
      let s := addAttrsSch s "col" "width align char charoff valign"
      let s := addAttrsSch s "colgroup" "width align char charoff valign"
      let s := addAttrsSch s "thead" "align char charoff valign"
      let s := addAttrsSch s "tr" "align char charoff valign bgcolor"
      let s := addAttrsSch s "th" "axis align char charoff valign nowrap bgcolor width height"
      let s := addAttrsSch s "form" "accept"
      let s := addAttrsSch s "td" "abbr axis scope align char charoff valign nowrap bgcolor width height"
      let s := addAttrsSch s "tfoot" "align char charoff valign"
      let s := addAttrsSch s "tbody" "align char charoff valign"
      let s := addAttrsSch s "area" "nohref"
      addAttrsSch s "body" "background bgcolor text link vlink alink"
    else s
  let s :=
    if notH4 then
      let s := addAttrsSch s "input button select textarea" "autofocus"
      let s := addAttrsSch s "input textarea" "placeholder"
      let s := addAttrsSch s "a" "download"
      let s := addAttrsSch s "link script img" "crossorigin"
      let s := addAttrsSch s "img" "loading"
      addAttrsSch s "iframe" "sandbox seamless allowfullscreen loading"
    else s
  let s := (splitSch "a form meter progress dfn" ' ').foldl delSelfChild s
  let s :=
    match jget s "caption" with
    | none => s
    | some it => jset s "caption" { it with children := jdel it.children "table" }
  jdel s "script"

/-! ## Schema instance state

The mutable closure variables of `Schema(settings)`.  `schemaItems` is a
`const` in the source and is therefore passed as a parameter to the
operations that read it rather than stored.  JavaScript reference aliasing
between `children`, `schemaItems` and the process-wide cache is modelled
with value semantics; the claims checked here never observe the
difference (none mixes `addValidChildren` mutation with a later re-seed
of the same alias). -/

structure SchemaState : Type where
  elements : JsMap SchemaElement := []
  children : JsMap (JsMap Unit) := []
  patternElements : List SchemaElement := []
  customElementsMap : JsMap String := []
  blockElementsMap : JsMap Unit := []
deriving DecidableEq, Repr

/-- A loop over a list of tokens whose body may throw: the JS exception
aborts the whole call, so an error short-circuits. -/
def foldE {s a : Type} (f : s → a → Except String s) : s → List a → Except String s
  | st, [] => Except.ok st
  | st, x :: xs =>
    match f st x with
    | Except.ok st' => foldE f st' xs
    | Except.error e => Except.error e

/-! ## The rule grammar parser (`addValidElements`) -/

/-- The state threaded through one `addValidElements` call: the two
closure variables it mutates plus the captured global-attribute rule. -/
structure CoreSt : Type where
  elements : JsMap SchemaElement
  patterns : List SchemaElement
  globals : Option (JsMap AttrRule × List String)
deriving DecidableEq, Repr

/-- Process one attribute token of an element rule (the inner `for` loop
body).  When the regex leaves the name group undefined the source throws
`TypeError` on `matches[2].replace`. -/
def processAttrToken (el : SchemaElement) (t : String) : Except String SchemaElement :=
  let p := parseAttrToken t
  match p.name with
  | none => Except.error "TypeError: Cannot read properties of undefined (reading replace)"
  | some raw =>
    let attrName := (replaceEsc raw.data).asString
    if p.attrType = some '-' then
      Except.ok
        { el with
          attributes := jdel el.attributes attrName
          attributesOrder := spliceOne el.attributesOrder (jsIndexOf el.attributesOrder attrName) }
    else
      let el :=
        if p.attrType = some '!' then
          { el with attributesRequired := some (el.attributesRequired.getD [] ++ [attrName]) }
        else el
      let v := p.value.getD ""
      let el :=
        if p.op = some '=' then
          { el with attributesDefault := some (el.attributesDefault.getD [] ++ [(attrName, v)]) }
        else if p.op = some ':' then
          { el with attributesForced := some (el.attributesForced.getD [] ++ [(attrName, v)]) }
        else el
      let attr : AttrRule :=
        { required := p.attrType = some '!'
          defaultValue := if p.op = some '=' then some v else none
          forcedValue := if p.op = some ':' then some v else none
          validValues := if p.op = some '<' then some (makeMapP v (· = '?') []) else none }
      if hasWild attrName then
        Except.ok
          { el with
            attributePatterns :=
              some (el.attributePatterns.getD [] ++ [{ attr with pattern := some (patCompile attrName) }]) }
      else
        Except.ok
          { el with
            attributesOrder :=
              if jhas el.attributes attrName then el.attributesOrder
              else el.attributesOrder ++ [attrName]
            attributes := jset el.attributes attrName attr }

/-- Process one successfully parsed element rule (the outer loop body of
`addValidElements` after `elementRuleRegExp` matched). -/
def processParsed (c : CoreSt) (m : ElemParse) : Except String CoreSt :=
  let el0 : SchemaElement :=
    { attributes := (c.globals.map Prod.fst).getD []
      attributesOrder := (c.globals.map Prod.snd).getD []
      paddEmpty := m.lead = some '#'
      removeEmpty := m.lead = some '-'
      removeEmptyAttrs := m.bang }
  let elE :=
    match m.attrData with
    | some d => foldE processAttrToken el0 (splitSch d '|')
    | none => Except.ok el0
  match elE with
  | Except.error e => Except.error e
  | Except.ok el =>
  let globals' :=
    if c.globals.isNone && m.name = "@" then some (el.attributes, el.attributesOrder)
    else c.globals
  let el := match m.outName with
    | some _ => { el with outputName := some m.name }
    | none => el
  let elements' := match m.outName with
    | some o => jset c.elements o el
    | none => c.elements
  if hasWild m.name then
    Except.ok
      { elements := elements'
        patterns := c.patterns ++ [{ el with pattern := some (patCompile m.name) }]
        globals := globals' }
  else
    Except.ok
      { elements := jset elements' m.name el
        patterns := c.patterns
        globals := globals' }

/-- One iteration of the outer rule loop: a rule the regex rejects is
silently skipped. -/
def processRule (c : CoreSt) (r : String) : Except String CoreSt :=
  match parseElementRule r with
  | none => Except.ok c
  | some m => processParsed c m

/-- `addValidElements(validElements)` acting on the two closure variables
it mutates.  A falsy (empty) argument is a no-op.  The global-attribute
rule is taken from `elements['@']` when present, else captured from the
first `@` rule of this call. -/
def addValidElementsCore (e0 : JsMap SchemaElement) (p0 : List SchemaElement)
    (validElements : String) : Except String (JsMap SchemaElement × List SchemaElement) :=
  if validElements = "" then Except.ok (e0, p0)
  else
    let globals0 := (jget e0 "@").map fun e => (e.attributes, e.attributesOrder)
    (foldE processRule ⟨e0, p0, globals0⟩ (splitSch validElements ',')).map fun c =>
      (c.elements, c.patterns)

/-- `addValidElements` at the instance level. -/
def addValidElementsW (st : SchemaState) (v : String) : Except String SchemaState :=
  (addValidElementsCore st.elements st.patternElements v).map fun ep =>
    { st with elements := ep.1, patternElements := ep.2 }

/-- The re-seeding loop of `setValidElements`:
`each(schemaItems, (element, name) => { children[name] = element.children })`. -/
def seedChildren (c : JsMap (JsMap Unit)) (items : JsMap BaseItem) : JsMap (JsMap Unit) :=
  items.foldl (fun c ni => jset c ni.1 ni.2.children) c

/-- `setValidElements(validElements)`: reset the element and pattern
tables, re-parse, and re-seed the children graph from the base grammar. -/
def setValidElementsW (items : JsMap BaseItem) (st : SchemaState) (v : String) :
    Except String SchemaState :=
  (addValidElementsW { st with elements := [], patternElements := [] } v).map fun st' =>
    { st' with children := seedChildren st'.children items }

/-! ## The custom-element integrator (`addCustomElements`) -/

/-- Process one custom-element token.  A null regex match makes the source
throw on `matches[1]`; a missing clone source for the children graph makes
the `each(children)` loop dereference `undefined`. -/
def processCustomRule (st : SchemaState) (rule : String) : Except String SchemaState :=
  match parseCustomRule rule with
  | none => Except.error "TypeError: Cannot read properties of null (reading 1)"
  | some (inl, name) =>
    let cloneName := if inl then "span" else "div"
    match jget st.children cloneName with
    | none => Except.error "TypeError: Cannot read properties of undefined"
    | some cloneChildren =>
      let st := { st with
        children := jset st.children name cloneChildren
        customElementsMap := jset st.customElementsMap name cloneName }
      let st :=
        if !inl then
          { st with
              blockElementsMap := jset (jset st.blockElementsMap (toUpperJs name) ()) name () }
        else st
      let st :=
        if !(jhas st.elements name) then
          let customRule := (jget st.elements cloneName).getD {}
          let customRule := { customRule with removeEmptyAttrs := false, removeEmpty := false }
          { st with elements := jset st.elements name customRule }
        else st
      Except.ok
        { st with
          children := st.children.map fun kv =>
            match jget kv.2 cloneName with
            | some u => (kv.1, jset kv.2 name u)
            | none => kv }

/-- `addCustomElements(customElements)`; a falsy argument is a no-op.
The flushing of the process-wide block/text-block caches is not modelled. -/
def addCustomElementsW (st : SchemaState) (customElements : String) :
    Except String SchemaState :=
  if customElements = "" then Except.ok st
  else foldE processCustomRule st (splitSch customElements ',')

/-! ## The valid-children editor (`addValidChildren`) -/

/-- Process one valid-children rule.  Without a prefix the parent's child
set is recreated (always permitting `#comment`); with a `+`/`-` prefix the
existing set is extended/shrunk, and a missing parent makes the source
dereference `undefined` as soon as the child loop runs. -/
def processChildRule (st : SchemaState) (rule : String) : Except String SchemaState :=
  match parseChildRule rule with
  | none => Except.ok st
  | some (lead, parentName, childData) =>
    let childs := splitSch childData '|'
    match lead with
    | none =>
      let base : JsMap Unit := [("#comment", ())]
      Except.ok { st with
        children := jset st.children parentName (childs.foldl (fun m c => jset m c ()) base) }
    | some pc =>
      match jget st.children parentName with
      | none =>
        if childs.isEmpty then Except.ok st
        else Except.error "TypeError: Cannot read properties of undefined (child set)"
      | some p =>
        Except.ok { st with
          children := jset st.children parentName
            (childs.foldl (fun m c => if pc = '-' then jdel m c else jset m c ()) p) }

/-- `addValidChildren(validChildren)`; a falsy argument is a no-op.  The
invalidation of the process-wide base-grammar cache slot is not modelled. -/
def addValidChildrenW (st : SchemaState) (validChildren : String) :
    Except String SchemaState :=
  if validChildren = "" then Except.ok st
  else foldE processChildRule st (splitSch validChildren ',')

/-! ## The query engine -/

/-- `element.pattern.test(name)` for a stored pattern element. -/
def elemPatTest (e : SchemaElement) (name : String) : Bool :=
  match e.pattern with
  | some p => patTest p name
  | none => false

/-- The `while (i--)` scan over `patternElements`, testing index `i - 1`
downwards. -/
def patLoop (pats : List SchemaElement) (name : String) : Nat → Option SchemaElement
  | 0 => none
  | i + 1 =>
    match pats.get? i with
    | some e => if elemPatTest e name then some e else patLoop pats name i
    | none => patLoop pats name i

/-- `getElementRule(name)`: exact lookup, then the backwards pattern scan. -/
def getElementRule (st : SchemaState) (name : String) : Option SchemaElement :=
  match jget st.elements name with
  | some e => some e
  | none => patLoop st.patternElements name st.patternElements.length

/-- `isValid(name, attr?)`.  Note the source tests each attribute pattern
against `name` (the element name), not against `attr`. -/
def isValid (st : SchemaState) (name : String) (attr : Option String) : Bool :=
  match getElementRule st name with
  | none => false
  | some rule =>
    match attr with
    | none => true
    | some a =>
      if a = "" then true
      else if jhas rule.attributes a then true
      else
        match rule.attributePatterns with
        | some pats => pats.any fun ap =>
            match ap.pattern with
            | some p => patTest p name
            | none => false
        | none => false

/-- `isValidChild(name, child)`: case-insensitive membership in the
children graph. -/
def isValidChild (st : SchemaState) (name child : String) : Bool :=
  match jget st.children (toLowerJs name) with
  | none => false
  | some parent => jhas parent (toLowerJs child)

/-- `getBlockElements()`. -/
def getBlockElements (st : SchemaState) : JsMap Unit :=
  st.blockElementsMap

/-! ## Construction -/

/-- The recognized settings (only the fields the modelled components
read). -/
structure SchemaSettings : Type where
  schema : Option SType := none
  valid_elements : Option String := none
  extended_valid_elements : Option String := none
  invalid_elements : Option String := none
  custom_elements : Option String := none
  valid_children : Option String := none
  verify_html : Option Bool := none
  block_elements : Option String := none
  text_block_elements : Option String := none
deriving DecidableEq, Repr

/-- JS truthiness of an optional string setting. -/
def optTruthy (o : Option String) : Bool :=
  match o with
  | some s => s ≠ ""
  | none => false

/-- `createLookupTable(option, defaultValue, extendWith)` (the process-wide
memoization of the default map is not modelled). -/
def createLookupTable (optionVal : Option String) (defaultValue : String)
    (extendWith : JsMap Unit := []) : JsMap Unit :=
  match optionVal with
  | some v =>
    if v = "" then
      extendJ (makeMapP defaultValue (· = ' ') (makeMapP (toUpperJs defaultValue) (· = ' ') [])) extendWith
    else
      makeMapP v (fun c => c = ',' || c = ' ') (makeMapP (toUpperJs v) (fun c => c = ',' || c = ' ') [])
  | none =>
    extendJ (makeMapP defaultValue (· = ' ') (makeMapP (toUpperJs defaultValue) (· = ' ') [])) extendWith

/-- Update an existing element in place (`elements[name].f = v`); the
source call sites only touch names that exist. -/
def jmodElem (e : JsMap SchemaElement) (k : String) (f : SchemaElement → SchemaElement) :
    JsMap SchemaElement :=
  match jget e k with
  | none => e
  | some el => jset e k (f el)

/-- The `if (!settings.valid_elements)` branch of the constructor: clone
elements and children from the base grammar and apply the default
output-name, remove-empty, pad-empty and remove-empty-attrs tweaks. -/
def defaultSeed (items : JsMap BaseItem) (sch : Option SType) (st : SchemaState) :
    SchemaState :=
  let st :=
    { st with
      elements := items.foldl
        (fun e (ni : String × BaseItem) => jset e ni.1
          { attributes := ni.2.attributes, attributesOrder := ni.2.attributesOrder })
        st.elements
      children := items.foldl
        (fun c (ni : String × BaseItem) => jset c ni.1 ni.2.children) st.children }
  let st :=
    if sch ≠ some SType.html5 then
      { st with
          elements :=
            jmodElem (jmodElem st.elements "b" fun el => { el with outputName := some "strong" })
              "i" fun el => { el with outputName := some "em" } }
    else st
  let st :=
    { st with
        elements :=
          (splitSch "ol ul sub sup blockquote span font a table tbody strong em b i" ' ').foldl
            (fun e n => if jhas e n then jmodElem e n (fun el => { el with removeEmpty := true }) else e)
            st.elements }
  let st :=
    { st with
        elements :=
          (splitSch "p h1 h2 h3 h4 h5 h6 th td pre div address caption li" ' ').foldl
            (fun e n => jmodElem e n fun el => { el with paddEmpty := true })
            st.elements }
  { st with
      elements :=
        (splitSch "span" ' ').foldl
          (fun e n => jmodElem e n fun el => { el with removeEmptyAttrs := true })
          st.elements }

/-- The required-parents table installed near the end of construction. -/
def parentsRequiredStep (st : SchemaState) : SchemaState :=
  { st with
      elements :=
      [("dd", "dl"), ("dt", "dl"), ("li", "ul ol"), ("td", "tr"), ("th", "tr"),
       ("tr", "tbody thead tfoot"), ("tbody", "table"), ("thead", "table"),
       ("tfoot", "table"), ("legend", "fieldset"), ("area", "map"),
       ("param", "video audio object")].foldl
        (fun e kv =>
          if jhas e kv.1 then
            jmodElem e kv.1 fun el => { el with parentsRequired := some (splitSch kv.2 ' ') }
          else e)
        st.elements }

/-- The `invalid_elements` deletion loop. -/
def invalidElementsStep (inv : Option String) (st : SchemaState) : SchemaState :=
  if optTruthy inv then
    { st with
      elements :=
        (explodeJs (inv.getD "")).foldl
          (fun e n => if jhas e n then jdel e n else e) st.elements }
  else st

/-- The final internal-span fallback of the constructor. -/
def spanStep (st : SchemaState) : Except String SchemaState :=
  if (getElementRule st "span").isNone then
    addValidElementsW st "span[!data-mce-type|*]"
  else Except.ok st

/-- `Schema(settings)`: construction of a schema instance. -/
def Schema (settings : SchemaSettings) : Except String SchemaState :=
  let items := compileSchema settings.schema
  let settings :=
    if settings.verify_html = some false then
      { settings with valid_elements := some "*[*]" }
    else settings
  let textBlock := createLookupTable settings.text_block_elements
    ("h1 h2 h3 h4 h5 h6 p div address pre form "
      ++ "blockquote center dir fieldset header footer article section hgroup aside main nav figure")
  let block := createLookupTable settings.block_elements
    ("hr table tbody thead tfoot "
      ++ "th tr td li ol ul caption dl dt dd noscript menu isindex option "
      ++ "datalist select optgroup figcaption details summary") textBlock
  let st0 : SchemaState := { blockElementsMap := block }
  Except.bind
    (if optTruthy settings.valid_elements then
      setValidElementsW items st0 (settings.valid_elements.getD "")
    else
      Except.ok (defaultSeed items settings.schema st0)) fun st1 =>
  Except.bind (addCustomElementsW st1 (settings.custom_elements.getD "")) fun st2 =>
  Except.bind (addValidChildrenW st2 (settings.valid_children.getD "")) fun st3 =>
  Except.bind (addValidElementsW st3 (settings.extended_valid_elements.getD "")) fun st4 =>
  Except.bind (addValidChildrenW st4 "+ol[ul|ol],+ul[ul|ol]") fun st5 =>
  spanStep (invalidElementsStep settings.invalid_elements (parentsRequiredStep st5))

/-! ## Basic lemmas about the JavaScript object model -/

theorem jget_jset_self {α : Type} (m : JsMap α) (k : String) (v : α) :
    jget (jset m k v) k = some v := by
  induction m with
  | nil => simp [jset, jget]
  | cons h t ih =>
    obtain ⟨k', v'⟩ := h
    by_cases hk : k' = k <;> simp [jset, jget, hk, ih]

theorem jget_jset_ne {α : Type} (m : JsMap α) {k k' : String} (v : α) (h : k' ≠ k) :
    jget (jset m k v) k' = jget m k' := by
  induction m with
  | nil =>
    simp [jset, jget]
    exact fun hh => h hh.symm
  | cons hd t ih =>
    obtain ⟨k₀, v₀⟩ := hd
    by_cases hk : k₀ = k
    · subst hk
      simp [jset, jget, Ne.symm h]
    · simp [jset, jget, hk]
      by_cases hk' : k₀ = k' <;> simp [hk', ih]

theorem jset_same {α : Type} {m : JsMap α} {k : String} {v : α}
    (h : jget m k = some v) : jset m k v = m := by
  induction m with
  | nil => simp [jget] at h
  | cons hd t ih =>
    obtain ⟨k₀, v₀⟩ := hd
    by_cases hk : k₀ = k
    · subst hk
      simp [jget] at h
      simp [jset, h]
    · simp [jget, hk] at h
      simp [jset, hk, ih h]

/-! ## Lemmas about the children re-seeding loop -/

theorem seedChildren_cons (c : JsMap (JsMap Unit)) (k : String) (it : BaseItem)
    (rest : JsMap BaseItem) :
    seedChildren c ((k, it) :: rest) = seedChildren (jset c k it.children) rest := rfl

theorem jget_seedChildren_notmem (items : JsMap BaseItem) {k : String} :
    k ∉ jkeys items → ∀ c, jget (seedChildren c items) k = jget c k := by
  induction items with
  | nil => intro _ c; rfl
  | cons hd rest ih =>
    obtain ⟨k₀, it⟩ := hd
    intro h c
    have hne : k ≠ k₀ := fun he => h (by simp [jkeys, he])
    have hrest : k ∉ jkeys rest := fun hm => h (by simp [jkeys] at hm ⊢; right; exact hm)
    rw [seedChildren_cons, ih hrest]
    exact jget_jset_ne c it.children hne

theorem seedChildren_eq_self (items : JsMap BaseItem) :
    ∀ m, (∀ kv ∈ items, jget m kv.1 = some kv.2.children) →
      seedChildren m items = m := by
  induction items with
  | nil => intro m _; rfl
  | cons hd rest ih =>
    obtain ⟨k, it⟩ := hd
    intro m h
    rw [seedChildren_cons, jset_same (h (k, it) (by simp))]
    exact ih m fun kv hkv => h kv (by simp [hkv])

theorem jget_seedChildren_mem (items : JsMap BaseItem) :
    (jkeys items).Nodup →
    ∀ c kv, kv ∈ items → jget (seedChildren c items) kv.1 = some kv.2.children := by
  induction items with
  | nil => intro _ c kv hkv; cases hkv
  | cons hd rest ih =>
    obtain ⟨k, it⟩ := hd
    intro hnd c kv hkv
    have he : jkeys ((k, it) :: rest) = k :: jkeys rest := rfl
    rw [he] at hnd
    obtain ⟨h1, h2⟩ := List.nodup_cons.mp hnd
    rcases List.mem_cons.mp hkv with h3 | h3
    · subst h3
      rw [seedChildren_cons, jget_seedChildren_notmem rest h1, jget_jset_self]
    · exact ih h2 _ kv h3

theorem seedChildren_idem (items : JsMap BaseItem) (c : JsMap (JsMap Unit))
    (hnd : (jkeys items).Nodup) :
    seedChildren (seedChildren c items) items = seedChildren c items :=
  seedChildren_eq_self items _ fun kv hkv => jget_seedChildren_mem items hnd c kv hkv

/-! ## The backwards pattern scan -/

theorem patLoop_eq_find (pats : List SchemaElement) (name : String) :
    ∀ i, i ≤ pats.length →
      patLoop pats name i = ((pats.take i).reverse).find? fun e => elemPatTest e name := by
  intro i
  induction i with
  | zero => intro _; simp [patLoop]
  | succ n ih =>
    intro hle
    have hn : n < pats.length := Nat.lt_of_succ_le hle
    have hget : pats.get? n = some pats[n] := by
      rw [List.get?_eq_getElem?]
      exact List.getElem?_eq_getElem hn
    rw [patLoop, hget, List.take_succ]
    simp only [List.getElem?_eq_getElem hn, Option.toList, List.reverse_append,
      List.reverse_cons, List.reverse_nil, List.nil_append, List.singleton_append,
      List.find?]
    cases hpt : elemPatTest pats[n] name <;>
      simp [hpt, ih (Nat.le_of_lt hn)]

/-! ## Concrete schema instances used by the concrete theorems -/

/-- Extract the state of a successful operation (the claims below pin the
success itself with separate `Except`-level equations). -/
def stateOr (x : Except String SchemaState) : SchemaState :=
  match x with
  | Except.ok s => s
  | Except.error _ => {}

def settingsH5 : SchemaSettings := { schema := some SType.html5 }

def stH5 : SchemaState := stateOr (Schema settingsH5)

def stH4 : SchemaState := stateOr (Schema { schema := some SType.html4 })

def stStrict : SchemaState := stateOr (Schema { schema := some SType.html5strict })

def stC1 : SchemaState :=
  stateOr (Schema { schema := some SType.html5, valid_elements := some "a[data-*]" })

def stC2 : SchemaState :=
  stateOr (Schema { schema := some SType.html5, valid_elements := some "a[href|title|-bogus]" })

def stC2p : SchemaState :=
  stateOr (Schema { schema := some SType.html5, valid_elements := some "a[href|title|-title]" })

def stC5a : SchemaState :=
  stateOr (Schema { schema := some SType.html5, valid_elements := some "@[id],a[href]" })

def stC5b : SchemaState :=
  stateOr (Schema { schema := some SType.html5, valid_elements := some "a[href],@[id]" })

def st8block : SchemaState := stateOr (addCustomElementsW stH5 "bogus")

def st8inline : SchemaState := stateOr (addCustomElementsW stH5 "~bogus")

def stC9re : SchemaState :=
  stateOr (Schema { schema := some SType.html5, extended_valid_elements := some "script[src|type]" })

/-! ## Claim theorems -/

/-- C1: evaluation of the code at the claim's failing input.  On the
schema compiled from `valid_elements = "a[data-*]"`, the rule for `a`
carries an attribute pattern whose matcher accepts the attribute name
`data-foo`, yet `isValid('a', 'data-foo')` returns `false`: the source
tests `attrPatterns[i].pattern.test(name)` — the element name — instead of
the attribute name, so the claimed equivalence with "some pattern accepts
the attribute name" fails. -/
theorem C1_attrPattern_tests_element_name :
    (Schema { schema := some SType.html5, valid_elements := some "a[data-*]" }).isOk = true ∧
    isValid stC1 "a" (some "data-foo") = false ∧
    ((getElementRule stC1 "a").map fun r =>
      (r.attributePatterns.getD []).any fun ap =>
        match ap.pattern with
        | some p => patTest p "data-foo"
        | none => false) = some true := by
  refine ⟨by decide, by decide, by decide⟩

/-- C2: evaluation of the code at the claim's failing input.  Parsing
`valid_elements = "a[href|title|-bogus]"`, the token `-bogus` denies an
attribute that is absent; `Tools.inArray` yields `-1` and
`attributesOrder.splice(-1, 1)` removes the *last* entry, so the order
list collapses to `["href"]` while the attribute mapping still holds both
`href` and `title` — not the claimed no-op.  When the denied attribute is
present (`-title`), both the mapping and the order list drop it as the
claim states. -/
theorem C2_denied_absent_attribute_not_noop :
    ((getElementRule stC2 "a").map fun r => r.attributesOrder) = some ["href"] ∧
    ((getElementRule stC2 "a").map fun r => jkeys r.attributes) = some ["href", "title"] ∧
    ((getElementRule stC2p "a").map fun r => (r.attributesOrder, jkeys r.attributes)) =
      some (["href"], ["href"]) := by
  refine ⟨by decide, by decide, by decide⟩

/-- C3: evaluation of the code at the claim's failing inputs.  The public
operations are not total: `addCustomElements('a,')` crashes on the empty
trailing token (`customElementRegExp` returns `null` and the source reads
`matches[1]`), construction with that `custom_elements` setting propagates
the crash, `addValidElements('a[x|]')` crashes on the empty attribute
token (name group undefined, `matches[2].replace` throws), and
`addValidChildren('+zz[x]')` crashes dereferencing the child set of an
unknown parent. -/
theorem C3_public_operations_throw :
    addCustomElementsW stH5 "a," =
      Except.error "TypeError: Cannot read properties of null (reading 1)" ∧
    Schema { schema := some SType.html5, custom_elements := some "a," } =
      Except.error "TypeError: Cannot read properties of null (reading 1)" ∧
    addValidElementsW stH5 "a[x|]" =
      Except.error "TypeError: Cannot read properties of undefined (reading replace)" ∧
    addValidChildrenW stH5 "+zz[x]" =
      Except.error "TypeError: Cannot read properties of undefined (child set)" := by
  refine ⟨rfl, rfl, rfl, rfl⟩

/-- C4: evaluation of the code at the claim's failing input.  In the base
grammar of every variant the `link` rule's attribute string
`'href rel media hreflang type sizes hreflang'` repeats `hreflang`, so the
`attributesOrder` reachable through `getElementRule('link')` lists it
twice, refuting "each attribute name appears at most once per rule". -/
theorem C4_link_attributesOrder_duplicate :
    ((getElementRule stH5 "link").map fun r => r.attributesOrder.count "hreflang") = some 2 ∧
    ((getElementRule stH4 "link").map fun r => r.attributesOrder.count "hreflang") = some 2 ∧
    ((getElementRule stStrict "link").map fun r => r.attributesOrder.count "hreflang") = some 2 := by
  refine ⟨by decide, by decide, by decide⟩

/-- C5: global-attribute merging is positional within one parsing pass.
With `valid_elements = "@[id],a[href]"` the rule for `a` (parsed after the
`@` rule) contains the global `id` attribute before its own `href`; with
`valid_elements = "a[href],@[id]"` the rule for `a` (parsed before the `@`
rule) contains no trace of `id`. -/
theorem C5_positional_global_attributes :
    ((getElementRule stC5a "a").map fun r => jkeys r.attributes) = some ["id", "href"] ∧
    ((getElementRule stC5a "a").map fun r => r.attributesOrder) = some ["id", "href"] ∧
    isValid stC5a "a" (some "id") = true ∧
    ((getElementRule stC5b "a").map fun r => jkeys r.attributes) = some ["href"] ∧
    ((getElementRule stC5b "a").map fun r => r.attributesOrder) = some ["href"] ∧
    isValid stC5b "a" (some "id") = false := by
  refine ⟨by decide, by decide, by decide, by decide, by decide, by decide⟩

/-- C8: custom elements on a default html5 schema.  `isValid('bogus')` is
false; after `addCustomElements('bogus')` (block form) the element is
valid and `div` accepts it as a child; after `addCustomElements('~bogus')`
(inline form) `p` accepts it as a child but `bogus` is not a key of the
block-elements map returned by `getBlockElements`. -/
theorem C8_addCustomElements_behaviour :
    isValid stH5 "bogus" none = false ∧
    (addCustomElementsW stH5 "bogus").isOk = true ∧
    isValid st8block "bogus" none = true ∧
    isValidChild st8block "div" "bogus" = true ∧
    (addCustomElementsW stH5 "~bogus").isOk = true ∧
    isValidChild st8inline "p" "bogus" = true ∧
    jhas (getBlockElements st8inline) "bogus" = false := by
  refine ⟨by decide, by decide, by decide, by decide, by decide, by decide, by decide⟩

/-- C9: the post-declaration clean-up of the base grammar, for each
variant (html4, html5, html5-strict) under default settings: no element of
the denylist `a form meter progress dfn` admits itself as a child,
`caption` does not admit `table`, and `script` is removed so
`getElementRule('script')` is the not-found sentinel — unless a user rule
re-adds it, as `extended_valid_elements = "script[src|type]"` does. -/
theorem C9_base_grammar_cleanup :
    (isValidChild stH4 "a" "a" = false ∧ isValidChild stH4 "form" "form" = false ∧
     isValidChild stH4 "meter" "meter" = false ∧ isValidChild stH4 "progress" "progress" = false ∧
     isValidChild stH4 "dfn" "dfn" = false ∧ isValidChild stH4 "caption" "table" = false ∧
     getElementRule stH4 "script" = none) ∧
    (isValidChild stH5 "a" "a" = false ∧ isValidChild stH5 "form" "form" = false ∧
     isValidChild stH5 "meter" "meter" = false ∧ isValidChild stH5 "progress" "progress" = false ∧
     isValidChild stH5 "dfn" "dfn" = false ∧ isValidChild stH5 "caption" "table" = false ∧
     getElementRule stH5 "script" = none) ∧
    (isValidChild stStrict "a" "a" = false ∧ isValidChild stStrict "form" "form" = false ∧
     isValidChild stStrict "meter" "meter" = false ∧ isValidChild stStrict "progress" "progress" = false ∧
     isValidChild stStrict "dfn" "dfn" = false ∧ isValidChild stStrict "caption" "table" = false ∧
     getElementRule stStrict "script" = none) ∧
    (getElementRule stC9re "script").isSome = true := by
  refine ⟨⟨by decide, by decide, by decide, by decide, by decide, by decide, by decide⟩,
    ⟨by decide, by decide, by decide, by decide, by decide, by decide, by decide⟩,
    ⟨by decide, by decide, by decide, by decide, by decide, by decide, by decide⟩,
    by decide⟩

/-- C6: `getElementRule` returns the exact-map entry when one exists;
otherwise its `while (i--)` loop is exactly a first-match scan of the
pattern sequence in reverse registration order; and when neither an exact
entry exists nor any pattern matches, it returns the not-found sentinel. -/
theorem C6_getElementRule_lookup_order (st : SchemaState) (name : String) :
    (∀ e, jget st.elements name = some e → getElementRule st name = some e) ∧
    (jget st.elements name = none →
      getElementRule st name =
        st.patternElements.reverse.find? fun e => elemPatTest e name) ∧
    (jget st.elements name = none →
      (∀ e ∈ st.patternElements, elemPatTest e name = false) →
      getElementRule st name = none) := by
  have hscan : jget st.elements name = none →
      getElementRule st name =
        st.patternElements.reverse.find? fun e => elemPatTest e name := by
    intro hn
    simp only [getElementRule, hn]
    rw [patLoop_eq_find st.patternElements name st.patternElements.length (le_refl _),
      List.take_length]
  refine ⟨?_, hscan, ?_⟩
  · intro e he
    simp [getElementRule, he]
  · intro hn hall
    rw [hscan hn]
    apply List.find?_eq_none.mpr
    intro x hx
    simp [hall x (List.mem_reverse.mp hx)]

def stPat : SchemaState :=
  stateOr (Schema { schema := some SType.html5, valid_elements := some "x*[id],xy*[id]" })

/-- C6 witness: on the schema compiled from `valid_elements = "x*[id],xy*[id]"`
the name `xyz` has no exact entry, so `getElementRule` is the reverse-order
first-match scan of the pattern sequence. -/
theorem C6_getElementRule_lookup_order_witness :
    getElementRule stPat "xyz" =
      stPat.patternElements.reverse.find? fun e => elemPatTest e "xyz" :=
  (C6_getElementRule_lookup_order stPat "xyz").2.1 (by decide)

/-- The factored form of `setValidElements`: the element and pattern
tables are rebuilt from empty by the parser (so they depend only on the
input string), and the children graph is overwritten from the base
grammar. -/
theorem setValid_factored (items : JsMap BaseItem) (st : SchemaState) (v : String) :
    setValidElementsW items st v =
      (addValidElementsCore [] [] v).map fun ep =>
        { st with elements := ep.1, patternElements := ep.2,
                  children := seedChildren st.children items } := by
  unfold setValidElementsW addValidElementsW
  cases h : addValidElementsCore [] [] v <;> simp [h, Except.map]

/-- C7: `setValidElements` is a full reset.  For any base grammar with
distinct element names, after a successful `setValidElements(s1)` the
result of `setValidElements(s2)` — the entire instance state, hence the
behaviour of `getElementRule`, `isValid` and `isValidChild` — is the same
as calling `setValidElements(s2)` on the original instance: no residue of
`s1` survives. -/
theorem C7_setValidElements_full_reset (items : JsMap BaseItem) (st st1 : SchemaState)
    (s1 s2 : String) (hnd : (jkeys items).Nodup)
    (h1 : setValidElementsW items st s1 = Except.ok st1) :
    setValidElementsW items st1 s2 = setValidElementsW items st s2 := by
  rw [setValid_factored] at h1
  rw [setValid_factored items st1 s2, setValid_factored items st s2]
  cases hc1 : addValidElementsCore [] [] s1 with
  | error e =>
    rw [hc1] at h1
    simp [Except.map] at h1
  | ok ep1 =>
    rw [hc1] at h1
    simp only [Except.map] at h1
    injection h1 with h1'
    subst h1'
    cases hc2 : addValidElementsCore [] [] s2 with
    | error e => simp [Except.map]
    | ok ep2 =>
      simp only [Except.map]
      simp [seedChildren_idem items st.children hnd]

def itemsH5 : JsMap BaseItem := compileSchema (some SType.html5)

def stC7a : SchemaState := stateOr (setValidElementsW itemsH5 stH5 "a[href]")

/-- C7 witness: concretely, `setValidElements("a[href]")` then
`setValidElements("b[id]")` on the default html5 instance gives exactly
the state of `setValidElements("b[id]")` alone. -/
theorem C7_setValidElements_full_reset_witness :
    setValidElementsW itemsH5 stC7a "b[id]" = setValidElementsW itemsH5 stH5 "b[id]" :=
  C7_setValidElements_full_reset itemsH5 stH5 stC7a "a[href]" "b[id]" (by decide) rfl

/-! ## The internal-span fallback (C10) -/

theorem tok1_eval (el : SchemaElement) :
    processAttrToken el "!data-mce-type" =
      Except.ok
        { el with
          attributesRequired := some (el.attributesRequired.getD [] ++ ["data-mce-type"])
          attributesOrder :=
            if jhas el.attributes "data-mce-type" then el.attributesOrder
            else el.attributesOrder ++ ["data-mce-type"]
          attributes := jset el.attributes "data-mce-type" { required := true } } := rfl

theorem tok2_eval (el : SchemaElement) :
    processAttrToken el "*" =
      Except.ok
        { el with
          attributePatterns :=
            some (el.attributePatterns.getD [] ++ [{ pattern := some (patCompile "*") }]) } := rfl

/-- Parsing the fixed fallback rule `span[!data-mce-type|*]` always
succeeds and stores an element rule under the exact name `span`,
whatever the current tables and global-attribute rule are. -/
theorem processParsed_span (c : CoreSt) :
    ∃ el, processParsed c ⟨none, "span", none, false, some "!data-mce-type|*"⟩ =
      Except.ok ⟨jset c.elements "span" el, c.patterns, c.globals⟩ := by
  simp only [processParsed]
  rw [show splitSch "!data-mce-type|*" '|' = ["!data-mce-type", "*"] from rfl]
  simp only [foldE, tok1_eval, tok2_eval]
  simp only [show hasWild "span" = false from rfl, Bool.false_eq_true, if_false]
  simp only [show decide ("span" = "@") = false from rfl, Bool.and_false, if_false]
  exact ⟨_, rfl⟩

theorem core_span (e0 : JsMap SchemaElement) (p0 : List SchemaElement) :
    ∃ el, addValidElementsCore e0 p0 "span[!data-mce-type|*]" =
      Except.ok (jset e0 "span" el, p0) := by
  unfold addValidElementsCore
  rw [if_neg (by decide)]
  rw [show splitSch "span[!data-mce-type|*]" ',' = ["span[!data-mce-type|*]"] from rfl]
  simp only [foldE, processRule]
  rw [show parseElementRule "span[!data-mce-type|*]" =
    some ⟨none, "span", none, false, some "!data-mce-type|*"⟩ from rfl]
  dsimp only
  obtain ⟨el, hel⟩ := processParsed_span
    ⟨e0, p0, (jget e0 "@").map fun e => (e.attributes, e.attributesOrder)⟩
  rw [hel]
  exact ⟨el, rfl⟩

/-- Whatever state reaches the final span check, the state it returns has
a rule matching `span`. -/
theorem spanStep_ok (s st : SchemaState) (h : spanStep s = Except.ok st) :
    (getElementRule st "span").isSome = true ∧ isValid st "span" none = true := by
  unfold spanStep at h
  by_cases hn : (getElementRule s "span").isNone
  · rw [if_pos hn] at h
    unfold addValidElementsW at h
    obtain ⟨el, hel⟩ := core_span s.elements s.patternElements
    rw [hel] at h
    simp only [Except.map] at h
    injection h with h'
    subst h'
    have hrule : getElementRule
        { s with elements := jset s.elements "span" el, patternElements := s.patternElements }
        "span" = some el := by
      simp [getElementRule, jget_jset_self]
    refine ⟨by simp [hrule], ?_⟩
    simp [isValid, hrule]
  · rw [if_neg hn] at h
    injection h with h'
    subst h'
    cases hr : getElementRule s "span" with
    | none => rw [hr] at hn; simp at hn
    | some e =>
      refine ⟨by simp [hr], ?_⟩
      simp [isValid, hr]

theorem exceptBindOk {a b : Type} {x : Except String a} {f : a → Except String b} {v : b}
    (h : Except.bind x f = Except.ok v) : ∃ u, x = Except.ok u ∧ f u = Except.ok v := by
  cases x with
  | error e => simp [Except.bind] at h
  | ok u => exact ⟨u, rfl, h⟩

/-- C10: every construction that completes yields an instance with a rule
matching `span`: the constructor's last step adds the internal rule
`span[!data-mce-type|*]` whenever no rule matches `span`, so
`getElementRule('span')` is defined and `isValid('span')` is true
immediately after construction, for every settings object. -/
theorem C10_span_rule_always_present (settings : SchemaSettings) (st : SchemaState)
    (h : Schema settings = Except.ok st) :
    (getElementRule st "span").isSome = true ∧ isValid st "span" none = true := by
  unfold Schema at h
  obtain ⟨st1, h1, h⟩ := exceptBindOk h
  obtain ⟨st2, h2, h⟩ := exceptBindOk h
  obtain ⟨st3, h3, h⟩ := exceptBindOk h
  obtain ⟨st4, h4, h⟩ := exceptBindOk h
  obtain ⟨st5, h5, h⟩ := exceptBindOk h
  exact spanStep_ok _ _ h

def stOnlyP : SchemaState :=
  stateOr (Schema { schema := some SType.html5, valid_elements := some "p[id]" })

/-- C10 witness: `valid_elements = "p[id]"` leaves no user rule matching
`span`, yet the constructed instance answers `isValid('span')` with true
through the silently added internal rule. -/
theorem C10_span_rule_always_present_witness :
    (getElementRule stOnlyP "span").isSome = true ∧ isValid stOnlyP "span" none = true :=
  C10_span_rule_always_present
    { schema := some SType.html5, valid_elements := some "p[id]" } stOnlyP rfl

end Schema2Proof
